import Mathlib

/- Verification of the Cflat static type checker (src/ast.hpp, src/ast.cpp).

   The development shallowly embeds the checker: `Ty` mirrors the C++ `Type`
   class hierarchy, `Ty.equals` mirrors the virtual `equals` methods
   (dispatching on the receiver, i.e. the first argument), `typeEq` mirrors
   the free function `typeEq`, and `pickNonNil` mirrors `pickNonNil`.
   The AST node hierarchy, the expression/place/statement `check` methods,
   the environment constructors `construct_gamma` / `construct_delta` and
   `Program::check` are embedded below.  C++ exceptions (`TypeError`) are
   modelled with `Except String`; `std::shared_ptr<Type>` is modelled by the
   value type `Ty` (no null pointers arise in the checker), and the
   `std::unordered_map` environments by association lists where a later
   insertion is prepended and lookup takes the first match, which reproduces
   the map's overwrite semantics. -/

inductive Ty where
  | int : Ty
  | nil : Ty
  | struct (name : String) : Ty
  | ptr (pointeeType : Ty) : Ty
  | array (elementType : Ty) : Ty
  | fn (paramTypes : List Ty) (returnType : Ty) : Ty

/- Discriminators corresponding to the C++ `dynamic_cast` tests. -/

def Ty.isNil : Ty → Bool
  | .nil => true
  | _ => false

def Ty.isPtr : Ty → Bool
  | .ptr _ => true
  | _ => false

def Ty.isArray : Ty → Bool
  | .array _ => true
  | _ => false

def Ty.isStruct : Ty → Bool
  | .struct _ => true
  | _ => false

def Ty.isFn : Ty → Bool
  | .fn _ _ => true
  | _ => false

/- The virtual `equals` methods (IntType::equals, NilType::equals,
   StructType::equals, ArrayType::equals, PtrType::equals, FnType::equals).
   `TypePtrEqual` on non-null pointers is just `equals` on the pointees;
   FnType::equals first compares the lengths of the parameter lists and then
   the components, which `tyListEquals` computes at once. -/
mutual
def Ty.equals : Ty → Ty → Bool
  | .int, other =>
      match other with
      | .int => true
      | _ => false
  | .nil, other =>
      match other with
      | .nil => true
      | .ptr _ => true
      | .array _ => true
      | _ => false
  | .struct n, other =>
      match other with
      | .struct m => n == m
      | _ => false
  | .array e, other =>
      match other with
      | .nil => true
      | .array e2 => e.equals e2
      | _ => false
  | .ptr p, other =>
      match other with
      | .nil => true
      | .ptr p2 => p.equals p2
      | _ => false
  | .fn ps r, other =>
      match other with
      | .fn ps2 r2 => tyListEquals ps ps2 && r.equals r2
      | _ => false

def tyListEquals : List Ty → List Ty → Bool
  | [], [] => true
  | a :: as, b :: bs => a.equals b && tyListEquals as bs
  | _, _ => false
end

/- Free function `typeEq` (src/ast.cpp:104-119).  The null-pointer guard of
   the C++ code cannot fire in the embedding. -/
def typeEq (t1 t2 : Ty) : Bool :=
  if t1.isNil then
    t2.isNil || t2.isPtr || t2.isArray
  else if t2.isNil then
    t1.isPtr || t1.isArray
  else
    t1.equals t2

/- `pickNonNil` (src/ast.cpp:124-130). -/
def pickNonNil (t1 t2 : Ty) : Ty :=
  if !t1.isNil then t1 else t2

/- Type rendering (Type::toString overrides; FnType::toString at
   src/ast.cpp:20-34 joins the parameter types with ", "). -/
mutual
def Ty.toString : Ty → String
  | .int => "int"
  | .nil => "nil"
  | .struct n => "struct(" ++ n ++ ")"
  | .ptr t => "ptr(" ++ t.toString ++ ")"
  | .array t => "array(" ++ t.toString ++ ")"
  | .fn ps r => "(" ++ tyParamsToString ps ++ ") -> " ++ r.toString

def tyParamsToString : List Ty → String
  | [] => ""
  | [t] => t.toString
  | t :: rest => t.toString ++ ", " ++ tyParamsToString rest
end

/- `nilFree` is a specification-side predicate (not from the source): a type
   contains no `Nil` anywhere.  It is used to state where `eq` coincides with
   structural identity. -/
mutual
def Ty.nilFree : Ty → Bool
  | .int => true
  | .nil => false
  | .struct _ => true
  | .ptr t => t.nilFree
  | .array t => t.nilFree
  | .fn ps r => tyListNilFree ps && r.nilFree

def tyListNilFree : List Ty → Bool
  | [] => true
  | t :: ts => t.nilFree && tyListNilFree ts
end

/- AST node hierarchy (src/ast.hpp).  `Exp` and `Place` are the separate
   C++ class hierarchies; `Val` is the only way a `Place` occurs in
   expression position, exactly as in the source.  `FunCall` is the shared
   callee/arguments node used by `CallExp` and `CallStmt`. -/

inductive UnaryOp where
  | neg : UnaryOp
  | not : UnaryOp
deriving DecidableEq

inductive BinaryOp where
  | add | sub | mul | div | and | or | eq | notEq | lt | lte | gt | gte : BinaryOp
deriving DecidableEq

mutual
inductive Exp where
  | val (place : Place) : Exp
  | num (value : Int) : Exp
  | nilE : Exp
  | select (guard tt ff : Exp) : Exp
  | unop (op : UnaryOp) (exp : Exp) : Exp
  | binop (op : BinaryOp) (left right : Exp) : Exp
  | newSingle (type : Ty) : Exp
  | newArray (type : Ty) (size : Exp) : Exp
  | call (funCall : FunCall) : Exp

inductive Place where
  | id (name : String) : Place
  | deref (exp : Exp) : Place
  | arrayAccess (array index : Exp) : Place
  | fieldAccess (ptr : Exp) (field : String) : Place

inductive FunCall where
  | mk (callee : Exp) (args : List Exp) : FunCall
end

/- Operator rendering.  The C++ sources repeat this `switch` verbatim in
   BinOp::toString, Select::toString, NewArray::toString and
   ArrayAccess::toString / ::check; it is factored out here once. -/
def binOpStr : BinaryOp → String
  | .add => "+"
  | .sub => "-"
  | .mul => "*"
  | .div => "/"
  | .eq => "=="
  | .notEq => "!="
  | .lt => "<"
  | .lte => "<="
  | .gt => ">"
  | .gte => ">="
  | .and => "and"
  | .or => "or"

def Exp.isSelect : Exp → Bool
  | .select _ _ _ => true
  | _ => false

/- `isLowPrecedence` (src/ast.cpp:133-143): only BinOp and Select count. -/
def isLowPrecedence : Exp → Bool
  | .binop _ _ _ => true
  | .select _ _ _ => true
  | _ => false

/- Source-syntax rendering used in diagnostics (the `toString` methods of
   the AST classes, src/ast.cpp).  The special cases re-render a nested
   BinOp with parenthesized Select operands, exactly as in the source. -/
mutual
def Exp.toString : Exp → String
  | .val p => p.toString
  | .num n => ToString.toString n
  | .nilE => "nil"
  | .select g t f =>
      let guardStr0 := g.toString
      let guardStr :=
        match g with
        | .binop op2 l2 r2 =>
            if l2.isSelect || r2.isSelect then
              let ls := l2.toString
              let rs := r2.toString
              (if l2.isSelect then "(" ++ ls ++ ")" else ls) ++ " " ++ binOpStr op2 ++ " " ++
                (if r2.isSelect then "(" ++ rs ++ ")" else rs)
            else guardStr0
        | _ => guardStr0
      let ttStr := (if t.isSelect then "(" ++ t.toString ++ ")" else t.toString)
      let ffStr := (if f.isSelect then "(" ++ f.toString ++ ")" else f.toString)
      guardStr ++ " ? " ++ ttStr ++ " : " ++ ffStr
  | .unop op e =>
      let opStr := match op with | .neg => "-" | .not => "not "
      let expStr := e.toString
      if isLowPrecedence e then opStr ++ "(" ++ expStr ++ ")" else opStr ++ expStr
  | .binop op l r =>
      let leftStr := l.toString
      let rightStr0 := r.toString
      let rightStr :=
        match r with
        | .binop op2 l2 r2 =>
            if l2.isSelect || r2.isSelect then
              let ls := l2.toString
              let rs := r2.toString
              (if l2.isSelect then "(" ++ ls ++ ")" else ls) ++ " " ++ binOpStr op2 ++ " " ++
                (if r2.isSelect then "(" ++ rs ++ ")" else rs)
            else rightStr0
        | _ => rightStr0
      leftStr ++ " " ++ binOpStr op ++ " " ++ rightStr
  | .newSingle t => "new " ++ t.toString
  | .newArray t s =>
      let sizeStr0 := s.toString
      let sizeStr :=
        match s with
        | .binop op2 l2 r2 =>
            if l2.isSelect || r2.isSelect then
              let ls := l2.toString
              let rs := r2.toString
              (if l2.isSelect then "(" ++ ls ++ ")" else ls) ++ " " ++ binOpStr op2 ++ " " ++
                (if r2.isSelect then "(" ++ rs ++ ")" else rs)
            else sizeStr0
        | _ => sizeStr0
      "[" ++ t.toString ++ "; " ++ sizeStr ++ "]"
  | .call fc => fc.toString

def Place.toString : Place → String
  | .id n => n
  | .deref e =>
      let expStr := e.toString
      let needParens :=
        isLowPrecedence e ||
          (match e with
           | .val (.arrayAccess _ _) => true
           | .val (.fieldAccess _ _) => true
           | .newArray _ _ => true
           | .newSingle _ => true
           | _ => false)
      if needParens then "(" ++ expStr ++ ").*" else expStr ++ ".*"
  | .arrayAccess a i =>
      let arrayStr := a.toString
      let arrayStr := if a.isSelect then "(" ++ arrayStr ++ ")" else arrayStr
      let indexStr0 := i.toString
      let indexStr :=
        match i with
        | .binop op2 l2 r2 =>
            if r2.isSelect then
              l2.toString ++ " " ++ binOpStr op2 ++ " (" ++ r2.toString ++ ")"
            else indexStr0
        | _ => indexStr0
      arrayStr ++ "[" ++ indexStr ++ "]"
  | .fieldAccess e fld =>
      let ptrStr := e.toString
      let ptrStr := if e.isSelect then "(" ++ ptrStr ++ ")" else ptrStr
      ptrStr ++ "." ++ fld

def FunCall.toString : FunCall → String
  | .mk callee args =>
      let calleeStr := callee.toString
      let calleeStr := if isLowPrecedence callee then "(" ++ calleeStr ++ ")" else calleeStr
      calleeStr ++ "(" ++ expArgsToString args ++ ")"

def expArgsToString : List Exp → String
  | [] => ""
  | [e] => e.toString
  | e :: rest => e.toString ++ ", " ++ expArgsToString rest
end


/- Environments (src/ast.hpp:154-161).  The `std::unordered_map`s are
   modelled as association lists: an insertion prepends, a lookup takes the
   first matching key, so a later insertion overwrites an earlier one. -/

abbrev Gamma := List (String × Ty)

abbrev Delta := List (String × List (String × Ty))

/- Rendering of a top-level ArrayAccess in ArrayAccess::check error
   messages (the `renderTopLevel` lambda, src/ast.cpp:623-655): like
   ArrayAccess::toString but without parenthesizing a Select in array
   position. -/
def arrayAccessRenderTopLevel (a i : Exp) : String :=
  let indexStr :=
    match i with
    | .binop op2 l2 r2 =>
        if r2.isSelect then
          l2.toString ++ " " ++ binOpStr op2 ++ " (" ++ r2.toString ++ ")"
        else i.toString
    | _ => i.toString
  a.toString ++ "[" ++ indexStr ++ "]"

/- The expression/place typing rules: the `check` methods of the `Exp` and
   `Place` hierarchies (src/ast.cpp:566-975).  `TypeError` exceptions become
   `.error`; a thrown exception in a subterm propagates, which the explicit
   matches on `Except` spell out. -/
mutual
def Exp.check : Exp → Gamma → Delta → Except String Ty
  | .val p, γ, δ => p.check γ δ
  | .num n, _, _ =>
      if n ≥ 0 then .ok .int
      else .error ("negative number " ++ ToString.toString n ++ " is not allowed")
  | .nilE, _, _ => .ok .nil
  | .select g t f, γ, δ =>
      match g.check γ δ with
      | .error e => .error e
      | .ok guardType =>
        if !typeEq guardType .int then
          .error ("non-int type " ++ guardType.toString ++ " for select guard '" ++
            g.toString ++ "'")
        else
          match t.check γ δ with
          | .error e => .error e
          | .ok ttType =>
            match f.check γ δ with
            | .error e => .error e
            | .ok ffType =>
              if !typeEq ttType ffType then
                .error ("incompatible types " ++ ttType.toString ++ " vs " ++
                  ffType.toString ++ " in select branches '" ++ t.toString ++
                  "' vs '" ++ f.toString ++ "'")
              else .ok (pickNonNil ttType ffType)
  | .unop op e, γ, δ =>
      match e.check γ δ with
      | .error err => .error err
      | .ok operandType =>
        if !typeEq operandType .int then
          .error ("non-int operand type " ++ operandType.toString ++ " in unary op '" ++
            (Exp.unop op e).toString ++ "'")
        else .ok .int
  | .binop op l r, γ, δ =>
      match l.check γ δ with
      | .error err => .error err
      | .ok leftType =>
        match r.check γ δ with
        | .error err => .error err
        | .ok rightType =>
          if op = .eq ∨ op = .notEq then
            if !typeEq leftType rightType then
              .error ("incompatible types " ++ leftType.toString ++ " vs " ++
                rightType.toString ++ " in binary op '" ++ (Exp.binop op l r).toString ++ "'")
            else if leftType.isStruct || leftType.isFn then
              .error ("invalid type " ++ leftType.toString ++ " used in binary op '" ++
                (Exp.binop op l r).toString ++ "'")
            else if rightType.isStruct || rightType.isFn then
              .error ("invalid type " ++ rightType.toString ++ " used in binary op '" ++
                (Exp.binop op l r).toString ++ "'")
            else .ok .int
          else
            if !typeEq leftType .int then
              .error ("non-int type " ++ leftType.toString ++
                " for left operand of binary op '" ++ (Exp.binop op l r).toString ++ "'")
            else if !typeEq rightType .int then
              .error ("right operand of binary op '" ++ (Exp.binop op l r).toString ++
                "' has type " ++ rightType.toString ++ ", should be int")
            else .ok .int
  | .newSingle t, _, δ =>
      if t.isNil || t.isFn then
        .error ("invalid type used for allocation '" ++ (Exp.newSingle t).toString ++ "'")
      else
        match t with
        | .struct s =>
            match List.lookup s δ with
            | none =>
                .error ("allocating non-existent struct type '" ++
                  (Exp.newSingle t).toString ++ "'")
            | some _ => .ok (.ptr t)
        | _ => .ok (.ptr t)
  | .newArray t s, γ, δ =>
      match s.check γ δ with
      | .error err => .error err
      | .ok amtType =>
        if !typeEq amtType .int then
          .error ("non-int type " ++ amtType.toString ++
            " used for second argument of allocation '" ++ (Exp.newArray t s).toString ++ "'")
        else if t.isNil || t.isFn || t.isStruct then
          .error ("invalid type used for first argument of allocation '" ++
            (Exp.newArray t s).toString ++ "'")
        else .ok (.array t)
  | .call fc, γ, δ => fc.check γ δ

def Place.check : Place → Gamma → Delta → Except String Ty
  | .id n, γ, _ =>
      match List.lookup n γ with
      | some τ => .ok τ
      | none => .error ("id " ++ n ++ " does not exist in this scope")
  | .deref e, γ, δ =>
      match e.check γ δ with
      | .error err => .error err
      | .ok pointee =>
        match pointee with
        | .ptr τ => .ok τ
        | _ =>
            .error ("non-pointer type " ++ pointee.toString ++ " for dereference '" ++
              e.toString ++ ".*'")
  | .arrayAccess a i, γ, δ =>
      match a.check γ δ with
      | .error err => .error err
      | .ok arrType =>
        match i.check γ δ with
        | .error err => .error err
        | .ok idxType =>
          if !typeEq idxType .int then
            .error ("non-int index type " ++ idxType.toString ++ " for array access '" ++
              arrayAccessRenderTopLevel a i ++ "'")
          else
            match arrType with
            | .array elementType => .ok elementType
            | _ =>
              if typeEq arrType .nil then
                .error ("non-array type " ++ arrType.toString ++ " for array access '" ++
                  arrayAccessRenderTopLevel a i ++ "'")
              else
                .error ("non-array type " ++ arrType.toString ++ " for array access '" ++
                  arrayAccessRenderTopLevel a i ++ "'")
  | .fieldAccess e fld, γ, δ =>
      match e.check γ δ with
      | .error err => .error err
      | .ok baseType =>
        match baseType with
        | .ptr pointee =>
          match pointee with
          | .struct sname =>
            match List.lookup sname δ with
            | none =>
                .error ("non-existent struct type " ++ sname ++ " in field access '" ++
                  (Place.fieldAccess e fld).toString ++ "'")
            | some fields =>
              match List.lookup fld fields with
              | none =>
                  .error ("non-existent field " ++ sname ++ "::" ++ fld ++
                    " in field access '" ++ (Place.fieldAccess e fld).toString ++ "'")
              | some τ => .ok τ
          | _ =>
              .error ("pointer type <" ++ baseType.toString ++
                "> does not point to a struct in field access '" ++
                (Place.fieldAccess e fld).toString ++ "'")
        | _ =>
            .error ("<" ++ baseType.toString ++
              "> is not a struct pointer type in field access '" ++
              (Place.fieldAccess e fld).toString ++ "'")

/- FunCall::check (src/ast.cpp:854-975).  The C++ first tests whether the
   callee is (directly, or as `Val` of) an `Id` named "main"; a direct `Id`
   cannot occur because `Id` is a `Place`, not an `Exp`, so only the
   `Val (Id _)` shape can match. -/
def FunCall.check : FunCall → Gamma → Delta → Except String Ty
  | .mk callee args, γ, δ =>
      let directIdName : Option String :=
        match callee with
        | .val (.id n) => some n
        | _ => none
      if directIdName = some "main" then .error "trying to call 'main'"
      else
        match callee.check γ δ with
        | .error e => .error e
        | .ok calleeType =>
          let funcSig : Option (List Ty × Ty) :=
            match calleeType with
            | .fn ps r => some (ps, r)
            | .ptr pointee =>
                match pointee with
                | .fn ps r => some (ps, r)
                | _ => none
            | _ => none
          match funcSig with
          | none =>
              .error ("trying to call type " ++ calleeType.toString ++
                " as function pointer in call '" ++ (FunCall.mk callee args).toString ++ "'")
          | some (ps, r) =>
            if args.length ≠ ps.length then
              .error ("incorrect number of arguments (" ++ ToString.toString args.length ++
                " vs " ++ ToString.toString ps.length ++ ") in call '" ++
                (FunCall.mk callee args).toString ++ "'")
            else
              match checkArgs args ps γ δ ((FunCall.mk callee args).toString) with
              | .error e => .error e
              | .ok _ => .ok r

/- The argument loop of FunCall::check (src/ast.cpp:964-970); the length
   equality has been verified before it runs. -/
def checkArgs : List Exp → List Ty → Gamma → Delta → String → Except String Unit
  | [], _, _, _, _ => .ok ()
  | a :: as, ps, γ, δ, callStr =>
      match ps with
      | [] => .ok ()
      | p :: rest =>
        match a.check γ δ with
        | .error e => .error e
        | .ok argType =>
          if !typeEq argType p then
            .error ("incompatible argument type " ++ argType.toString ++
              " vs parameter type " ++ p.toString ++ " for argument '" ++ a.toString ++
              "' in call '" ++ callStr ++ "'")
          else checkArgs as rest γ δ callStr
end

/- Statements (src/ast.hpp:356-432).  `sif`/`swhile`/`sreturn` stand for
   the C++ classes If/While/Return (`if` etc. are reserved in Lean);
   `stmts` carries the statement list of a `Stmts` node and `sreturn` the
   optional expression of `Return`. -/
inductive Stmt where
  | stmts (statements : List Stmt) : Stmt
  | assign (place : Place) (exp : Exp) : Stmt
  | callstmt (funCall : FunCall) : Stmt
  | sif (guard : Exp) (tt : Stmt) (ff : Option Stmt) : Stmt
  | swhile (guard : Exp) (body : Stmt) : Stmt
  | sreturn (exp : Option Exp) : Stmt
  | sbreak : Stmt
  | scontinue : Stmt

/- Statement typing and definite-return analysis: the `Stmt::check`
   overrides (src/ast.cpp:978-1100).  The result boolean is the
   "definitely returns" flag; `stmtsCheck` is the accumulator loop of
   Stmts::check (`acc || b` reproduces "check but ignore the result once
   the accumulator is true"). -/
mutual
def Stmt.check : Stmt → Gamma → Delta → Ty → Bool → Except String Bool
  | .stmts l, γ, δ, returnType, inLoop => stmtsCheck l false γ δ returnType inLoop
  | .assign p e, γ, δ, _, _ =>
      match p.check γ δ with
      | .error err => .error err
      | .ok lhsType =>
        match e.check γ δ with
        | .error err => .error err
        | .ok rhsType =>
          if lhsType.isStruct || lhsType.isFn || lhsType.isNil then
            .error ("invalid type " ++ lhsType.toString ++
              " for left-hand side of assignment '" ++ p.toString ++ " = " ++
              e.toString ++ "'")
          else if !typeEq lhsType rhsType then
            .error ("incompatible types " ++ lhsType.toString ++ " vs " ++
              rhsType.toString ++ " for assignment '" ++ p.toString ++ " = " ++
              e.toString ++ "'")
          else .ok false
  | .callstmt fc, γ, δ, _, _ =>
      match fc.check γ δ with
      | .error err => .error err
      | .ok _ => .ok false
  | .sif g t f, γ, δ, returnType, inLoop =>
      match g.check γ δ with
      | .error err => .error err
      | .ok guardType =>
        if !typeEq guardType .int then
          .error ("non-int type " ++ guardType.toString ++ " for if guard '" ++
            g.toString ++ "'")
        else
          match t.check γ δ returnType inLoop with
          | .error err => .error err
          | .ok ttReturns =>
            match optStmtCheck f γ δ returnType inLoop with
            | .error err => .error err
            | .ok ffReturns => .ok (ttReturns && ffReturns)
  | .swhile g b, γ, δ, returnType, _ =>
      match g.check γ δ with
      | .error err => .error err
      | .ok guardType =>
        if !typeEq guardType .int then
          .error ("non-int type " ++ guardType.toString ++ " for while guard '" ++
            g.toString ++ "'")
        else
          match b.check γ δ returnType true with
          | .error err => .error err
          | .ok _ => .ok false
  | .sreturn oe, γ, δ, returnType, _ =>
      match oe with
      | some e =>
        match e.check γ δ with
        | .error err => .error err
        | .ok expType =>
          if !typeEq expType returnType then
            .error ("incompatible return type " ++ expType.toString ++ " for 'return " ++
              e.toString ++ "', should be " ++ returnType.toString)
          else .ok true
      | none =>
        if !typeEq returnType .int then
          .error ("missing return expression for non-int function type " ++
            returnType.toString)
        else .error "return statement requires an expression in this function"
  | .sbreak, _, _, _, inLoop =>
      if !inLoop then .error "break outside loop" else .ok false
  | .scontinue, _, _, _, inLoop =>
      if !inLoop then .error "continue outside loop" else .ok false

/- The else-branch computation of If::check (src/ast.cpp:1042-1047):
   `ffReturns` is `false` when the else branch is absent, otherwise the
   branch's own result. -/
def optStmtCheck : Option Stmt → Gamma → Delta → Ty → Bool → Except String Bool
  | none, _, _, _, _ => .ok false
  | some fs, γ, δ, returnType, inLoop => fs.check γ δ returnType inLoop

def stmtsCheck : List Stmt → Bool → Gamma → Delta → Ty → Bool → Except String Bool
  | [], acc, _, _, _, _ => .ok acc
  | s :: rest, acc, γ, δ, returnType, inLoop =>
      match s.check γ δ returnType inLoop with
      | .error err => .error err
      | .ok b => stmtsCheck rest (acc || b) γ δ returnType inLoop
end

/- Top-level declarations (src/ast.hpp:193-469). -/

structure Decl where
  name : String
  type : Ty

structure StructDef where
  name : String
  fields : List Decl

structure ExternDef where
  name : String
  param_types : List Ty
  rettype : Ty

structure FunctionDef where
  name : String
  params : List Decl
  rettype : Ty
  locals : List Decl
  body : Stmt

structure Program where
  structs : List StructDef
  externs : List ExternDef
  functions : List FunctionDef

/- construct_gamma (src/ast.cpp:1592-1611): externs are bound at type
   `fn(...)`, internal functions other than `main` at `ptr(fn(...))`;
   a function named `main` is not inserted. -/
def construct_gamma (externs : List ExternDef) (functions : List FunctionDef) : Gamma :=
  let g1 := externs.foldl (fun g ext => (ext.name, Ty.fn ext.param_types ext.rettype) :: g) []
  functions.foldl
    (fun g f =>
      if f.name = "main" then g
      else (f.name, Ty.ptr (Ty.fn (f.params.map Decl.type) f.rettype)) :: g)
    g1

/- construct_delta (src/ast.cpp:1613-1625). -/
def construct_delta (structs : List StructDef) : Delta :=
  structs.foldl
    (fun d s => (s.name, s.fields.foldl (fun fs f => (f.name, f.type) :: fs) []) :: d)
    []

/- The field loop of StructDef::check (src/ast.cpp:1107-1122): each field's
   type is validated, then its name is inserted into the local set of seen
   field names. -/
def structFieldsCheck (sname : String) : List Decl → List String → Except String Unit
  | [], _ => .ok ()
  | f :: rest, fieldNames =>
      if f.type.isNil || f.type.isStruct || f.type.isFn then
        .error ("invalid type " ++ f.type.toString ++ " for struct field " ++ sname ++
          "::" ++ f.name)
      else if f.name ∈ fieldNames then
        .error ("Duplicate field name '" ++ f.name ++ "' in struct '" ++ sname ++ "'")
      else structFieldsCheck sname rest (f.name :: fieldNames)

/- StructDef::check; the gamma/delta parameters are unused, as in the
   source. -/
def StructDef.check (s : StructDef) (_γ : Gamma) (_δ : Delta) : Except String Unit :=
  if s.fields.isEmpty then .error ("empty struct " ++ s.name)
  else structFieldsCheck s.name s.fields []

/- The two parameter/local loops of FunctionDef::check
   (src/ast.cpp:1126-1149) run the same per-declaration code over `params`
   then `locals` with one shared name set and one local gamma, so they are
   a single loop over `params ++ locals`. -/
def processDecls (fname : String) : List Decl → List String → Gamma → Except String Gamma
  | [], _, γ => .ok γ
  | d :: rest, localNames, γ =>
      if d.type.isNil || d.type.isStruct || d.type.isFn then
        .error ("invalid type " ++ d.type.toString ++ " for variable " ++ d.name ++
          " in function " ++ fname)
      else if d.name ∈ localNames then
        .error ("Duplicate parameter/local name '" ++ d.name ++ "' in function '" ++
          fname ++ "'")
      else processDecls fname rest (d.name :: localNames) ((d.name, d.type) :: γ)

/- FunctionDef::check (src/ast.cpp:1126-1171).  The body-is-null case of
   the C++ cannot arise in the embedding; the dynamic_cast to `Stmts` and
   the emptiness test are kept. -/
def FunctionDef.check (f : FunctionDef) (γ : Gamma) (δ : Delta) : Except String Unit :=
  match processDecls f.name (f.params ++ f.locals) [] γ with
  | .error e => .error e
  | .ok localGamma =>
    match f.body with
    | .stmts l =>
      if l.isEmpty then .error ("function " ++ f.name ++ " has an empty body")
      else
        match Stmt.check (.stmts l) localGamma δ f.rettype false with
        | .error e => .error e
        | .ok definitelyReturns =>
          if !definitelyReturns then
            .error ("function " ++ f.name ++ " may not execute a return")
          else .ok ()
    | _ => .error ("function " ++ f.name ++ " has an invalid body structure (expected Stmts)")

/- The top-level name set of Program::check (src/ast.cpp:1176-1194),
   threaded through the three insertion loops.  `insertFns` is the loop
   over function definitions: a function named "main" is neither checked
   against the set nor inserted. -/
def insertAll : List String → List String → Except String (List String)
  | seen, [] => .ok seen
  | seen, n :: rest =>
      if n ∈ seen then .error ("Duplicate name: " ++ n)
      else insertAll (n :: seen) rest

def insertFns : List String → List FunctionDef → Except String (List String)
  | seen, [] => .ok seen
  | seen, f :: rest =>
      if f.name ≠ "main" ∧ f.name ∈ seen then .error ("Duplicate name: " ++ f.name)
      else insertFns (if f.name = "main" then seen else f.name :: seen) rest

/- The `main` search loop of Program::check (src/ast.cpp:1199-1209). -/
def findMain : List FunctionDef → Bool → Except String Bool
  | [], mainFound => .ok mainFound
  | f :: rest, mainFound =>
      if f.name = "main" then
        if f.params.isEmpty && typeEq f.rettype .int then findMain rest true
        else .error "function 'main' exists but has wrong type, should be '() -> int'"
      else findMain rest mainFound

def checkStructs (γ : Gamma) (δ : Delta) : List StructDef → Except String Unit
  | [] => .ok ()
  | s :: rest =>
      match s.check γ δ with
      | .error e => .error e
      | .ok _ => checkStructs γ δ rest

def checkFunctions (γ : Gamma) (δ : Delta) : List FunctionDef → Except String Unit
  | [] => .ok ()
  | f :: rest =>
      match f.check γ δ with
      | .error e => .error e
      | .ok _ => checkFunctions γ δ rest

/- Program::check (src/ast.cpp:1176-1224): duplicate top-level names, the
   special "main conflicts with a struct/extern" re-check, environment
   construction, the `main` signature requirement, then struct checks and
   function checks. -/
def Program.check (p : Program) : Except String Unit :=
  match insertAll [] (p.structs.map StructDef.name) with
  | .error e => .error e
  | .ok seen1 =>
    match insertAll seen1 (p.externs.map ExternDef.name) with
    | .error e => .error e
    | .ok seen2 =>
      match insertFns seen2 p.functions with
      | .error e => .error e
      | .ok seen3 =>
        if seen3.contains "main" && p.functions.any (fun f => f.name == "main") then
          .error "Duplicate name: main"
        else
          let γ := construct_gamma p.externs p.functions
          let δ := construct_delta p.structs
          match findMain p.functions false with
          | .error e => .error e
          | .ok mainFound =>
            if !mainFound then .error "no 'main' function with type '() -> int' exists"
            else
              match checkStructs γ δ p.structs with
              | .error e => .error e
              | .ok _ => checkFunctions γ δ p.functions

/- The "definitely returns" value of a statement, `false` if its check
   throws; used to state the return-flow composition laws. -/
def retOf (s : Stmt) (γ : Gamma) (δ : Delta) (returnType : Ty) (inLoop : Bool) : Bool :=
  match s.check γ δ returnType inLoop with
  | .ok b => b
  | .error _ => false

/- A well-typed `main` of signature `() -> int` with body `return 0`, and
   the program holding two copies of it; used below to exercise the
   duplicate-name analysis. -/
def wellTypedMain : FunctionDef :=
  { name := "main", params := [], rettype := .int, locals := [],
    body := .stmts [.sreturn (some (.num 0))] }

def twoMainsProgram : Program := ⟨[], [], [wellTypedMain, wellTypedMain]⟩

/- A program with two structs named "a" and no function at all; used below
   to separate the duplicate-name diagnostic from the missing-main
   diagnostic. -/
def dupStructNoMainProgram : Program :=
  ⟨[⟨"a", [⟨"x", .int⟩]⟩, ⟨"a", [⟨"x", .int⟩]⟩], [], []⟩

/- The combined top-level name list whose duplicate-freedom the first phase
   of Program::check enforces: struct names, then extern names, then the
   names of functions other than "main". -/
def topLevelNames (p : Program) : List String :=
  p.structs.map StructDef.name ++ p.externs.map ExternDef.name ++
    (p.functions.map FunctionDef.name).filter (fun n => n ≠ "main")

/- ### Lemmas about the type model -/

mutual
theorem Ty.equals_refl : ∀ t : Ty, t.equals t = true
  | .int => rfl
  | .nil => rfl
  | .struct n => by simp [Ty.equals]
  | .ptr p => by simpa [Ty.equals] using Ty.equals_refl p
  | .array e => by simpa [Ty.equals] using Ty.equals_refl e
  | .fn ps r => by simp [Ty.equals, tyListEquals_refl ps, Ty.equals_refl r]

theorem tyListEquals_refl : ∀ l : List Ty, tyListEquals l l = true
  | [] => rfl
  | t :: ts => by simp [tyListEquals, Ty.equals_refl t, tyListEquals_refl ts]
end

mutual
theorem Ty.equals_symm : ∀ t u : Ty, t.equals u = u.equals t
  | .int, u => by cases u <;> rfl
  | .nil, u => by cases u <;> rfl
  | .struct n, u => by
      cases u <;> simp [Ty.equals]
      exact ⟨fun h => h.symm, fun h => h.symm⟩
  | .ptr p, u => by
      cases u <;> simp [Ty.equals]
      exact Ty.equals_symm p _
  | .array e, u => by
      cases u <;> simp [Ty.equals]
      exact Ty.equals_symm e _
  | .fn ps r, u => by
      cases u <;> simp [Ty.equals]
      rw [tyListEquals_symm ps _, Ty.equals_symm r _]

theorem tyListEquals_symm : ∀ l1 l2 : List Ty, tyListEquals l1 l2 = tyListEquals l2 l1
  | [], l2 => by cases l2 <;> rfl
  | a :: as, l2 => by
      cases l2 with
      | nil => rfl
      | cons b bs =>
          simp only [tyListEquals]
          rw [Ty.equals_symm a b, tyListEquals_symm as bs]
end

theorem typeEq_refl (t : Ty) : typeEq t t = true := by
  cases t <;> simp [typeEq, Ty.isNil, Ty.isPtr, Ty.isArray, Ty.equals_refl]

theorem typeEq_symm (t u : Ty) : typeEq t u = typeEq u t := by
  cases t <;> cases u <;>
    simp [typeEq, Ty.isNil, Ty.isPtr, Ty.isArray, Ty.equals_symm]

mutual
theorem Ty.equals_iff_eq_of_nilFree : ∀ t u : Ty, t.nilFree = true → u.nilFree = true →
    (t.equals u = true ↔ t = u)
  | .int, u, _, hu => by
      cases u <;> simp_all [Ty.equals, Ty.nilFree]
  | .nil, u, ht, _ => by simp [Ty.nilFree] at ht
  | .struct n, u, _, hu => by
      cases u <;> simp_all [Ty.equals, Ty.nilFree]
  | .ptr p, u, ht, hu => by
      cases u <;> simp_all [Ty.equals, Ty.nilFree]
      exact Ty.equals_iff_eq_of_nilFree p _ ht hu
  | .array e, u, ht, hu => by
      cases u <;> simp_all [Ty.equals, Ty.nilFree]
      exact Ty.equals_iff_eq_of_nilFree e _ ht hu
  | .fn ps r, u, ht, hu => by
      cases u <;> simp_all [Ty.equals, Ty.nilFree]
      rw [tyListEquals_iff_eq_of_nilFree ps _ ht.1 hu.1,
        Ty.equals_iff_eq_of_nilFree r _ ht.2 hu.2]

theorem tyListEquals_iff_eq_of_nilFree : ∀ l1 l2 : List Ty, tyListNilFree l1 = true →
    tyListNilFree l2 = true → (tyListEquals l1 l2 = true ↔ l1 = l2)
  | [], l2, _, _ => by cases l2 <;> simp [tyListEquals]
  | a :: as, l2, h1, h2 => by
      cases l2 with
      | nil => simp [tyListEquals]
      | cons b bs =>
          simp only [tyListNilFree, Bool.and_eq_true] at h1 h2
          simp only [tyListEquals, Bool.and_eq_true, List.cons.injEq]
          rw [Ty.equals_iff_eq_of_nilFree a b h1.1 h2.1,
            tyListEquals_iff_eq_of_nilFree as bs h1.2 h2.2]
end

theorem Ty.isNil_eq_false_of_nilFree {t : Ty} (h : t.nilFree = true) : t.isNil = false := by
  cases t <;> simp_all [Ty.nilFree, Ty.isNil]

theorem typeEq_iff_eq_of_nilFree {t u : Ty} (ht : t.nilFree = true) (hu : u.nilFree = true) :
    (typeEq t u = true ↔ t = u) := by
  rw [typeEq, Ty.isNil_eq_false_of_nilFree ht, Ty.isNil_eq_false_of_nilFree hu]
  simpa using Ty.equals_iff_eq_of_nilFree t u ht hu

theorem Ty.isNil_iff (t : Ty) : t.isNil = true ↔ t = Ty.nil := by
  cases t <;> simp [Ty.isNil]

/-- Claim C1: `eq(Nil, Nil)`, `eq(Nil, Ptr T)` and `eq(Nil, Array T)` all hold, in both
argument orders, for every `T`; `eq(Ptr Int, Array Int)` fails; and the triple
`eq(Ptr Int, Nil)`, `eq(Nil, Array Int)`, `¬eq(Ptr Int, Array Int)` witnesses that `eq`
is not transitive. -/
theorem claim_C1 :
    typeEq Ty.nil Ty.nil = true ∧
    (∀ T : Ty, typeEq Ty.nil (Ty.ptr T) = true ∧ typeEq (Ty.ptr T) Ty.nil = true ∧
      typeEq Ty.nil (Ty.array T) = true ∧ typeEq (Ty.array T) Ty.nil = true) ∧
    typeEq (Ty.ptr Ty.int) (Ty.array Ty.int) = false ∧
    (typeEq (Ty.ptr Ty.int) Ty.nil = true ∧ typeEq Ty.nil (Ty.array Ty.int) = true ∧
      typeEq (Ty.ptr Ty.int) (Ty.array Ty.int) = false) :=
  ⟨rfl, fun _ => ⟨rfl, rfl, rfl, rfl⟩, rfl, rfl, rfl, rfl⟩

/-- Claim C9: `eq` is reflexive and symmetric (symmetry holds for all pairs, including
types with nested `Nil` components). -/
theorem claim_C9 :
    (∀ T : Ty, typeEq T T = true) ∧ (∀ T U : Ty, typeEq T U = typeEq U T) :=
  ⟨typeEq_refl, typeEq_symm⟩

/-- Claim C2 counterexample: `Ptr Nil` and `Ptr (Ptr Int)` are both non-`Nil` and not
structurally identical, yet `eq` accepts them: the `equals` methods apply
nil-compatibility to nested components, not only at the top level as the claim
states. -/
theorem claim_C2_cex :
    Ty.ptr Ty.nil ≠ Ty.nil ∧ Ty.ptr (Ty.ptr Ty.int) ≠ Ty.nil ∧
    typeEq (Ty.ptr Ty.nil) (Ty.ptr (Ty.ptr Ty.int)) = true ∧
    Ty.ptr Ty.nil ≠ Ty.ptr (Ty.ptr Ty.int) :=
  ⟨by simp, by simp, rfl, by simp⟩

/-- Claim C2, amended: for `Nil`-free types `eq` is exactly structural identity, but
nil-compatibility is applied recursively to components, so a nested `Nil` is
compatible with any nested pointer/array type (e.g. `eq(Ptr Nil, Ptr (Ptr T))`). -/
theorem claim_C2_amended :
    (∀ τ1 τ2 : Ty, τ1.nilFree = true → τ2.nilFree = true →
      (typeEq τ1 τ2 = true ↔ τ1 = τ2)) ∧
    (∀ T : Ty, typeEq (Ty.ptr Ty.nil) (Ty.ptr (Ty.ptr T)) = true ∧
      typeEq (Ty.ptr Ty.nil) (Ty.ptr (Ty.array T)) = true ∧
      typeEq (Ty.array Ty.nil) (Ty.array (Ty.ptr T)) = true) :=
  ⟨fun _ _ h1 h2 => typeEq_iff_eq_of_nilFree h1 h2, fun _ => ⟨rfl, rfl, rfl⟩⟩

/-- Witness for the amended claim C2 at the nil-free pairs `(Ptr Int, Ptr Int)` and
`(Ptr Int, Array Int)`. -/
theorem claim_C2_witness :
    (typeEq (Ty.ptr Ty.int) (Ty.ptr Ty.int) = true ↔ Ty.ptr Ty.int = Ty.ptr Ty.int) ∧
    (typeEq (Ty.ptr Ty.int) (Ty.array Ty.int) = true ↔ Ty.ptr Ty.int = Ty.array Ty.int) :=
  ⟨claim_C2_amended.1 (Ty.ptr Ty.int) (Ty.ptr Ty.int) rfl rfl,
   claim_C2_amended.1 (Ty.ptr Ty.int) (Ty.array Ty.int) rfl rfl⟩

/-- Claim C3: `pick_non_nil` returns its first argument when that is not `Nil`, its
second argument otherwise, and returns `Nil` only when both arguments are `Nil`; and
whenever `eq(τ1, τ2)` holds the picked type is `eq` to both arguments and is
non-`Nil` as soon as one argument is. -/
theorem claim_C3 :
    (∀ τ1 τ2 : Ty, (τ1 ≠ Ty.nil → pickNonNil τ1 τ2 = τ1) ∧
      (τ1 = Ty.nil → pickNonNil τ1 τ2 = τ2) ∧
      (pickNonNil τ1 τ2 = Ty.nil → τ1 = Ty.nil ∧ τ2 = Ty.nil)) ∧
    (∀ τ1 τ2 : Ty, typeEq τ1 τ2 = true →
      typeEq (pickNonNil τ1 τ2) τ1 = true ∧ typeEq (pickNonNil τ1 τ2) τ2 = true ∧
      ((τ1 ≠ Ty.nil ∨ τ2 ≠ Ty.nil) → pickNonNil τ1 τ2 ≠ Ty.nil)) := by
  constructor
  · intro τ1 τ2
    by_cases h : τ1 = Ty.nil
    · subst h
      refine ⟨fun hc => absurd rfl hc, fun _ => rfl, fun h2 => ⟨rfl, ?_⟩⟩
      simpa [pickNonNil, Ty.isNil] using h2
    · have hn : τ1.isNil = false := by
        cases hh : τ1.isNil
        · rfl
        · exact absurd ((Ty.isNil_iff τ1).mp hh) h
      refine ⟨fun _ => by simp [pickNonNil, hn], fun hc => absurd hc h,
        fun h2 => ?_⟩
      rw [pickNonNil, hn] at h2
      simp at h2
      exact absurd h2 h
  · intro τ1 τ2 heq
    by_cases h : τ1 = Ty.nil
    · subst h
      have hpick : pickNonNil Ty.nil τ2 = τ2 := rfl
      rw [hpick]
      refine ⟨?_, typeEq_refl τ2, ?_⟩
      · rw [typeEq_symm]; exact heq
      · rintro (hc | hc)
        · exact absurd rfl hc
        · exact hc
    · have hn : τ1.isNil = false := by
        cases hh : τ1.isNil
        · rfl
        · exact absurd ((Ty.isNil_iff τ1).mp hh) h
      have hpick : pickNonNil τ1 τ2 = τ1 := by simp [pickNonNil, hn]
      rw [hpick]
      exact ⟨typeEq_refl τ1, heq, fun _ => h⟩

/-- Witness for claim C3 at the concrete pairs `(Ptr Int, Nil)` and `(Nil, Ptr Int)`
(where `eq` holds and one argument is non-`Nil`). -/
theorem claim_C3_witness :
    pickNonNil (Ty.ptr Ty.int) Ty.nil = Ty.ptr Ty.int ∧
    pickNonNil Ty.nil (Ty.ptr Ty.int) = Ty.ptr Ty.int ∧
    typeEq (pickNonNil Ty.nil (Ty.ptr Ty.int)) Ty.nil = true ∧
    typeEq (pickNonNil Ty.nil (Ty.ptr Ty.int)) (Ty.ptr Ty.int) = true ∧
    pickNonNil Ty.nil (Ty.ptr Ty.int) ≠ Ty.nil := by
  refine ⟨(claim_C3.1 (Ty.ptr Ty.int) Ty.nil).1 (by simp),
    (claim_C3.1 Ty.nil (Ty.ptr Ty.int)).2.1 rfl, ?_⟩
  obtain ⟨h1, h2, h3⟩ := claim_C3.2 Ty.nil (Ty.ptr Ty.int) rfl
  exact ⟨h1, h2, h3 (Or.inr (by simp))⟩

/- ### Lemmas about the definite-return analysis -/

theorem stmtsCheck_ok {l : List Stmt} {acc : Bool} {γ : Gamma} {δ : Delta} {r : Ty}
    {L b : Bool} (h : stmtsCheck l acc γ δ r L = .ok b) :
    b = (acc || l.any (fun s => retOf s γ δ r L)) := by
  induction l generalizing acc with
  | nil =>
      simp only [stmtsCheck, Except.ok.injEq] at h
      simp [← h]
  | cons s rest ih =>
      simp only [stmtsCheck] at h
      cases hc : Stmt.check s γ δ r L with
      | error e => simp [hc] at h
      | ok b1 =>
          rw [hc] at h
          have hrest := ih h
          simp [List.any_cons, retOf, hc, hrest, Bool.or_assoc]

/-- Claim C4: on well-typed statements the definite-return analysis composes as:
an `If` returns the conjunction of its branches (`false` for a missing else), a
`Stmts` block returns the disjunction over its member statements, and a `While`
always returns `false`, whatever its body. -/
theorem claim_C4 :
    (∀ (g : Exp) (t : Stmt) (f : Option Stmt) (γ : Gamma) (δ : Delta) (r : Ty) (L b : Bool),
      Stmt.check (.sif g t f) γ δ r L = .ok b →
      b = (retOf t γ δ r L &&
        (match f with | some fs => retOf fs γ δ r L | none => false))) ∧
    (∀ (l : List Stmt) (γ : Gamma) (δ : Delta) (r : Ty) (L b : Bool),
      Stmt.check (.stmts l) γ δ r L = .ok b →
      b = l.any (fun s => retOf s γ δ r L)) ∧
    (∀ (g : Exp) (body : Stmt) (γ : Gamma) (δ : Delta) (r : Ty) (L b : Bool),
      Stmt.check (.swhile g body) γ δ r L = .ok b → b = false) := by
  refine ⟨?_, ?_, ?_⟩
  · intro g t f γ δ r L b h
    simp only [Stmt.check] at h
    cases hg : Exp.check g γ δ with
    | error e => simp [hg] at h
    | ok gt =>
      rw [hg] at h
      cases hgt : typeEq gt Ty.int with
      | false => simp [hgt] at h
      | true =>
        simp only [hgt, Bool.not_true, Bool.false_eq_true, if_false] at h
        cases ht : Stmt.check t γ δ r L with
        | error e => simp [ht] at h
        | ok b1 =>
          rw [ht] at h
          cases f with
          | none =>
              simp only [optStmtCheck, Except.ok.injEq] at h
              simp [retOf, ht, ← h]
          | some fs =>
              simp only [optStmtCheck] at h
              cases hf : Stmt.check fs γ δ r L with
              | error e => simp [hf] at h
              | ok b2 =>
                  rw [hf] at h
                  simp only [Except.ok.injEq] at h
                  simp [retOf, ht, hf, ← h]
  · intro l γ δ r L b h
    simp only [Stmt.check] at h
    simpa using stmtsCheck_ok h
  · intro g body γ δ r L b h
    simp only [Stmt.check] at h
    cases hg : Exp.check g γ δ with
    | error e => simp [hg] at h
    | ok gt =>
      rw [hg] at h
      cases hgt : typeEq gt Ty.int with
      | false => simp [hgt] at h
      | true =>
        simp only [hgt, Bool.not_true, Bool.false_eq_true, if_false] at h
        cases hb : Stmt.check body γ δ r Bool.true with
        | error e => simp [hb] at h
        | ok b1 => rw [hb] at h; simp only [Except.ok.injEq] at h; exact h.symm

/-- Witness for claim C4: concrete well-typed `If` (missing else), `Stmts` and
`While` nodes checked under the empty environments with return type `int`. -/
theorem claim_C4_witness :
    false = (retOf (Stmt.sreturn (some (Exp.num 0))) [] [] Ty.int false && false) ∧
    true = ([Stmt.sreturn (some (Exp.num 0))].any fun s => retOf s [] [] Ty.int false) ∧
    false = false :=
  ⟨claim_C4.1 (.num 1) (.sreturn (some (.num 0))) none [] [] Ty.int false false rfl,
   claim_C4.2.1 [.sreturn (some (.num 0))] [] [] Ty.int false true rfl,
   claim_C4.2.2 (.num 1) (.stmts []) [] [] Ty.int false false rfl⟩

/-- Claim C7: a call whose callee is the identifier `main` (which, `Id` being a
`Place`, reaches `FunCall::check` as `Val (Id "main")`) is rejected with exactly
"trying to call 'main'" in both expression and statement position, for every
environment — in particular the rejection precedes any lookup of the callee's
type, since it fires under environments where `main` is not bound at all. -/
theorem claim_C7 :
    ∀ (args : List Exp) (γ : Gamma) (δ : Delta) (r : Ty) (L : Bool),
      FunCall.check (.mk (.val (.id "main")) args) γ δ = .error "trying to call 'main'" ∧
      Exp.check (.call (.mk (.val (.id "main")) args)) γ δ =
        .error "trying to call 'main'" ∧
      Stmt.check (.callstmt (.mk (.val (.id "main")) args)) γ δ r L =
        .error "trying to call 'main'" := by
  intro args γ δ r L
  have h1 : FunCall.check (.mk (.val (.id "main")) args) γ δ =
      .error "trying to call 'main'" := by
    simp [FunCall.check]
  exact ⟨h1, by simp [Exp.check, h1], by simp [Stmt.check, h1]⟩

/-- Claim C8: when both sides of an assignment type-check to `τ1` and `τ2`, the
assignment succeeds (contributing `false` to the return analysis) exactly when
`τ1` is not `Struct`/`Fn`/`Nil` and `eq(τ1, τ2)` holds; the right-hand side's type
is otherwise unrestricted, and `eq(Ptr T, Nil)` / `eq(Array T, Nil)` hold, so a
`Nil` right-hand side is accepted against any pointer or array left-hand side. -/
theorem claim_C8 :
    ∀ (p : Place) (e : Exp) (γ : Gamma) (δ : Delta) (r : Ty) (L : Bool) (τ1 τ2 : Ty),
      Place.check p γ δ = .ok τ1 → Exp.check e γ δ = .ok τ2 →
      (Stmt.check (.assign p e) γ δ r L = .ok false ↔
        ((τ1.isStruct || τ1.isFn || τ1.isNil) = false ∧ typeEq τ1 τ2 = true)) ∧
      (∀ b, Stmt.check (.assign p e) γ δ r L = .ok b → b = false) ∧
      (∀ T, typeEq (Ty.ptr T) Ty.nil = true ∧ typeEq (Ty.array T) Ty.nil = true) := by
  intro p e γ δ r L τ1 τ2 hp he
  refine ⟨?_, ?_, fun T => ⟨rfl, rfl⟩⟩
  · simp only [Stmt.check, hp, he]
    cases hbad : (τ1.isStruct || τ1.isFn || τ1.isNil) with
    | true => simp [hbad]
    | false =>
      simp only [hbad, Bool.false_eq_true, if_false]
      cases heq : typeEq τ1 τ2 with
      | false => simp [heq]
      | true => simp [heq]
  · intro b hb
    simp only [Stmt.check, hp, he] at hb
    split at hb
    · simp at hb
    · split at hb
      · simp at hb
      · simp only [Except.ok.injEq] at hb
        exact hb.symm

/-- Witness for claim C8 at the nil-assigned-to-pointer instance: `x : ptr(int)`
in scope and the assignment `x = nil`. -/
theorem claim_C8_witness :
    Stmt.check (.assign (.id "x") .nilE) [("x", Ty.ptr Ty.int)] [] Ty.int false =
        .ok false ↔
      (((Ty.ptr Ty.int).isStruct || (Ty.ptr Ty.int).isFn || (Ty.ptr Ty.int).isNil) = false ∧
        typeEq (Ty.ptr Ty.int) Ty.nil = true) :=
  (claim_C8 (.id "x") .nilE [("x", Ty.ptr Ty.int)] [] Ty.int false (Ty.ptr Ty.int)
    Ty.nil rfl rfl).1

/-- Claim C10 counterexample: `construct_gamma` skips only functions named `main`;
an extern named `main` is bound in the global environment, so "main is never bound
in Γ" fails on a program whose externs contain a `main`. -/
theorem claim_C10_cex :
    List.lookup "main" (construct_gamma [⟨"main", [], Ty.int⟩] []) =
      some (Ty.fn [] Ty.int) := rfl

/-- Claim C10, amended: `construct_gamma` never binds `main` on behalf of a function
definition (functions named `main` are skipped), so whenever no extern is named
`main` the identifier is unbound, and any use of `main` outside the direct-callee
position is then rejected with "id main does not exist in this scope". -/
theorem claim_C10_amended :
    (∀ (externs : List ExternDef) (functions : List FunctionDef),
      (∀ ext ∈ externs, ext.name ≠ "main") →
      List.lookup "main" (construct_gamma externs functions) = none) ∧
    (∀ (γ : Gamma) (δ : Delta), List.lookup "main" γ = none →
      Place.check (.id "main") γ δ = .error "id main does not exist in this scope" ∧
      Exp.check (.val (.id "main")) γ δ =
        .error "id main does not exist in this scope") := by
  constructor
  · intro externs functions hext
    have hfns : ∀ (fns : List FunctionDef) (g : Gamma),
        List.lookup "main" (fns.foldl (fun g f =>
          if f.name = "main" then g
          else (f.name, Ty.ptr (Ty.fn (f.params.map Decl.type) f.rettype)) :: g) g) =
        List.lookup "main" g := by
      intro fns
      induction fns with
      | nil => intro g; rfl
      | cons f rest ih =>
          intro g
          simp only [List.foldl_cons]
          by_cases hf : f.name = "main"
          · rw [if_pos hf, ih]
          · rw [if_neg hf, ih]
            have hne : ("main" == f.name) = false :=
              beq_eq_false_iff_ne.mpr (fun hh => hf hh.symm)
            simp [List.lookup, hne]
    have hexts : ∀ (exts : List ExternDef) (g : Gamma),
        (∀ ext ∈ exts, ext.name ≠ "main") →
        List.lookup "main" (exts.foldl (fun g ext =>
          (ext.name, Ty.fn ext.param_types ext.rettype) :: g) g) =
        List.lookup "main" g := by
      intro exts
      induction exts with
      | nil => intro g _; rfl
      | cons ext rest ih =>
          intro g hall
          simp only [List.foldl_cons]
          rw [ih _ (fun x hx => hall x (List.mem_cons_of_mem ext hx))]
          have hne : ("main" == ext.name) = false :=
            beq_eq_false_iff_ne.mpr (fun hh => (hall ext (List.mem_cons_self ext rest)) hh.symm)
          simp [List.lookup, hne]
    rw [construct_gamma]
    rw [hfns, hexts _ _ hext]
    rfl
  · intro γ δ hnone
    refine ⟨by simp [Place.check, hnone], by simp [Exp.check, Place.check, hnone]⟩

/-- Witness for the amended claim C10 at the empty extern/function lists and the
empty environment. -/
theorem claim_C10_witness :
    List.lookup "main" (construct_gamma [] []) = none ∧
    Place.check (.id "main") [] [] = .error "id main does not exist in this scope" :=
  ⟨claim_C10_amended.1 [] [] (by simp),
   (claim_C10_amended.2 [] [] rfl).1⟩

/- ### Lemmas about the top-level duplicate analysis -/

theorem insertAll_ok {names : List String} {seen out : List String}
    (h : insertAll seen names = .ok out) :
    names.Nodup ∧ (∀ n ∈ names, n ∉ seen) ∧ out = names.reverse ++ seen := by
  induction names generalizing seen with
  | nil =>
      simp only [insertAll, Except.ok.injEq] at h
      simp [h.symm]
  | cons n rest ih =>
      simp only [insertAll] at h
      by_cases hn : n ∈ seen
      · rw [if_pos hn] at h; cases h
      · rw [if_neg hn] at h
        obtain ⟨hnodup, hmem, hout⟩ := ih h
        refine ⟨List.nodup_cons.mpr ⟨?_, hnodup⟩, ?_, ?_⟩
        · intro hcontra
          exact (hmem n hcontra) (List.mem_cons_self n seen)
        · intro m hm
          rcases List.mem_cons.mp hm with hmn | hmrest
          · exact hmn ▸ hn
          · intro hms
            exact (hmem m hmrest) (List.mem_cons_of_mem n hms)
        · rw [hout]; simp

theorem insertAll_ok_of_nodup {names : List String} {seen : List String}
    (hnodup : names.Nodup) (hdisj : ∀ n ∈ names, n ∉ seen) :
    insertAll seen names = .ok (names.reverse ++ seen) := by
  induction names generalizing seen with
  | nil => rfl
  | cons n rest ih =>
      have hn : n ∉ seen := hdisj n (List.mem_cons_self n rest)
      rw [insertAll, if_neg hn]
      have hnodup' := (List.nodup_cons.mp hnodup).2
      have hdisj' : ∀ m ∈ rest, m ∉ n :: seen := by
        intro m hm
        intro hcontra
        rcases List.mem_cons.mp hcontra with hmn | hms
        · exact (List.nodup_cons.mp hnodup).1 (hmn ▸ hm)
        · exact (hdisj m (List.mem_cons_of_mem n hm)) hms
      rw [ih hnodup' hdisj']
      simp

theorem insertFns_eq (fs : List FunctionDef) (seen : List String) :
    insertFns seen fs =
      insertAll seen ((fs.map FunctionDef.name).filter (fun n => n ≠ "main")) := by
  induction fs generalizing seen with
  | nil => rfl
  | cons f rest ih =>
      by_cases hm : f.name = "main"
      · rw [insertFns, if_neg (by simp [hm]), if_pos hm]
        rw [ih seen]
        congr 1
        simp [hm]
      · simp only [List.map_cons, List.filter_cons]
        rw [if_pos (by simp [hm])]
        by_cases hs : f.name ∈ seen
        · rw [insertFns, if_pos ⟨hm, hs⟩, insertAll, if_pos hs]
        · rw [insertFns, if_neg (by intro hc; exact hs hc.2), if_neg hm, insertAll,
            if_neg hs]
          exact ih (f.name :: seen)

theorem findMain_noMain {fs : List FunctionDef} (h : ∀ f ∈ fs, f.name ≠ "main")
    (acc : Bool) : findMain fs acc = .ok acc := by
  induction fs with
  | nil => rfl
  | cons f rest ih =>
      rw [findMain, if_neg (h f (List.mem_cons_self f rest))]
      exact ih (fun g hg => h g (List.mem_cons_of_mem f hg))

theorem findMain_allBad {fs : List FunctionDef}
    (h : ∀ f ∈ fs, f.name = "main" →
      (f.params.isEmpty && typeEq f.rettype Ty.int) = false) (acc : Bool) :
    findMain fs acc = .ok acc ∨ ∃ e, findMain fs acc = .error e := by
  induction fs with
  | nil => exact Or.inl rfl
  | cons f rest ih =>
      by_cases hm : f.name = "main"
      · rw [findMain, if_pos hm]
        rw [h f (List.mem_cons_self f rest) hm]
        exact Or.inr ⟨_, rfl⟩
      · rw [findMain, if_neg hm]
        exact ih (fun g hg => h g (List.mem_cons_of_mem f hg))

theorem checkFunctions_ok_mem {γ : Gamma} {δ : Delta} {fs : List FunctionDef}
    (h : checkFunctions γ δ fs = .ok ()) :
    ∀ f ∈ fs, FunctionDef.check f γ δ = .ok () := by
  induction fs with
  | nil => intro f hf; cases hf
  | cons f rest ih =>
      intro g hg
      rw [checkFunctions] at h
      cases hc : FunctionDef.check f γ δ with
      | error e => rw [hc] at h; cases h
      | ok u =>
          rw [hc] at h
          rcases List.mem_cons.mp hg with hgf | hgr
          · subst hgf; cases u; exact hc
          · exact ih h g hgr

theorem checkStructs_ok_mem {γ : Gamma} {δ : Delta} {ss : List StructDef}
    (h : checkStructs γ δ ss = .ok ()) :
    ∀ s ∈ ss, StructDef.check s γ δ = .ok () := by
  induction ss with
  | nil => intro s hs; cases hs
  | cons s rest ih =>
      intro t ht
      rw [checkStructs] at h
      cases hc : StructDef.check s γ δ with
      | error e => rw [hc] at h; cases h
      | ok u =>
          rw [hc] at h
          rcases List.mem_cons.mp ht with hts | htr
          · subst hts; cases u; exact hc
          · exact ih h t htr

theorem processDecls_ok_nodup {fname : String} {decls : List Decl}
    {seen : List String} {γ out : Gamma}
    (h : processDecls fname decls seen γ = .ok out) :
    (decls.map Decl.name).Nodup ∧ ∀ n ∈ decls.map Decl.name, n ∉ seen := by
  induction decls generalizing seen γ with
  | nil => simp
  | cons d rest ih =>
      rw [processDecls] at h
      by_cases hbad : (d.type.isNil || d.type.isStruct || d.type.isFn) = true
      · rw [if_pos hbad] at h; cases h
      · rw [if_neg hbad] at h
        by_cases hdup : d.name ∈ seen
        · rw [if_pos hdup] at h; cases h
        · rw [if_neg hdup] at h
          obtain ⟨hnodup, hmem⟩ := ih h
          refine ⟨List.nodup_cons.mpr ⟨?_, hnodup⟩, ?_⟩
          · intro hc
            exact (hmem _ hc) (List.mem_cons_self _ _)
          · intro n hn
            rcases List.mem_cons.mp hn with hnd | hnr
            · exact hnd ▸ hdup
            · intro hns
              exact (hmem n hnr) (List.mem_cons_of_mem _ hns)

theorem structFieldsCheck_ok_nodup {sname : String} {fields : List Decl}
    {seen : List String} (h : structFieldsCheck sname fields seen = .ok ()) :
    (fields.map Decl.name).Nodup ∧ ∀ n ∈ fields.map Decl.name, n ∉ seen := by
  induction fields generalizing seen with
  | nil => simp
  | cons d rest ih =>
      rw [structFieldsCheck] at h
      by_cases hbad : (d.type.isNil || d.type.isStruct || d.type.isFn) = true
      · rw [if_pos hbad] at h; cases h
      · rw [if_neg hbad] at h
        by_cases hdup : d.name ∈ seen
        · rw [if_pos hdup] at h; cases h
        · rw [if_neg hdup] at h
          obtain ⟨hnodup, hmem⟩ := ih h
          refine ⟨List.nodup_cons.mpr ⟨?_, hnodup⟩, ?_⟩
          · intro hc
            exact (hmem _ hc) (List.mem_cons_self _ _)
          · intro n hn
            rcases List.mem_cons.mp hn with hnd | hnr
            · exact hnd ▸ hdup
            · intro hns
              exact (hmem n hnr) (List.mem_cons_of_mem _ hns)

theorem FunctionDef.check_ok_decls_nodup {f : FunctionDef} {γ : Gamma} {δ : Delta}
    (h : FunctionDef.check f γ δ = .ok ()) :
    ((f.params ++ f.locals).map Decl.name).Nodup := by
  rw [FunctionDef.check] at h
  cases hpd : processDecls f.name (f.params ++ f.locals) [] γ with
  | error e => rw [hpd] at h; cases h
  | ok out => exact (processDecls_ok_nodup hpd).1

theorem StructDef.check_ok_fields_nodup {s : StructDef} {γ : Gamma} {δ : Delta}
    (h : StructDef.check s γ δ = .ok ()) : (s.fields.map Decl.name).Nodup := by
  rw [StructDef.check] at h
  by_cases hempty : s.fields.isEmpty = true
  · rw [if_pos hempty] at h; cases h
  · rw [if_neg hempty] at h
    exact (structFieldsCheck_ok_nodup h).1

/- Success inversion for Program::check: a program that checks passed every
   phase. -/
theorem Program.check_ok_inv {p : Program} (h : Program.check p = .ok ()) :
    ∃ seen1 seen2 seen3,
      insertAll [] (p.structs.map StructDef.name) = .ok seen1 ∧
      insertAll seen1 (p.externs.map ExternDef.name) = .ok seen2 ∧
      insertFns seen2 p.functions = .ok seen3 ∧
      (seen3.contains "main" && p.functions.any (fun f => f.name == "main")) = false ∧
      findMain p.functions false = .ok true ∧
      checkStructs (construct_gamma p.externs p.functions) (construct_delta p.structs)
        p.structs = .ok () ∧
      checkFunctions (construct_gamma p.externs p.functions) (construct_delta p.structs)
        p.functions = .ok () := by
  rw [Program.check] at h
  cases h1 : insertAll [] (p.structs.map StructDef.name) with
  | error e => rw [h1] at h; cases h
  | ok seen1 =>
    rw [h1] at h
    simp only [] at h
    cases h2 : insertAll seen1 (p.externs.map ExternDef.name) with
    | error e => rw [h2] at h; simp at h
    | ok seen2 =>
      rw [h2] at h
      simp only [] at h
      cases h3 : insertFns seen2 p.functions with
      | error e => rw [h3] at h; simp at h
      | ok seen3 =>
        rw [h3] at h
        simp only [] at h
        cases h4 : (seen3.contains "main" && p.functions.any (fun f => f.name == "main")) with
        | true => simp only [h4, if_true] at h; cases h
        | false =>
          simp only [h4, Bool.false_eq_true, if_false] at h
          cases h5 : findMain p.functions false with
          | error e => rw [h5] at h; simp at h
          | ok mainFound =>
            rw [h5] at h
            simp only [] at h
            cases mainFound with
            | false => simp only [Bool.not_false, if_true] at h; cases h
            | true =>
              simp only [Bool.not_true, Bool.false_eq_true, if_false] at h
              cases h6 : checkStructs (construct_gamma p.externs p.functions)
                  (construct_delta p.structs) p.structs with
              | error e => rw [h6] at h; simp at h
              | ok u =>
                rw [h6] at h
                simp only [] at h
                cases u
                exact ⟨seen1, seen2, seen3, rfl, h2, h3, h4, rfl, rfl, h⟩

/-- Claim C5 counterexample: two function definitions sharing the name `main` are a
duplicate among function names, yet the program holding two copies of a well-typed
`main` passes `Program::check`: the duplicate loop skips functions named `main` and
the later re-check only catches `main` colliding with a struct or extern name. -/
theorem claim_C5_cex :
    twoMainsProgram.functions.map FunctionDef.name = ["main", "main"] ∧
    ¬ (twoMainsProgram.functions.map FunctionDef.name).Nodup ∧
    Program.check twoMainsProgram = .ok () :=
  ⟨rfl, by decide, rfl⟩

/-- Claim C5, amended: a duplicate among struct names, extern names and non-`main`
function names rejects, as does a function named `main` sharing its name with a
struct or extern, a duplicate among a function's parameters plus locals, and a
duplicate among a struct's fields; only two function definitions that are both
named `main` escape the duplicate detection. -/
theorem claim_C5_amended :
    ∀ p : Program,
      (¬ (topLevelNames p).Nodup → Program.check p ≠ .ok ()) ∧
      ("main" ∈ p.structs.map StructDef.name ++ p.externs.map ExternDef.name →
        (∃ f ∈ p.functions, f.name = "main") → Program.check p ≠ .ok ()) ∧
      (∀ f ∈ p.functions, ¬ ((f.params ++ f.locals).map Decl.name).Nodup →
        Program.check p ≠ .ok ()) ∧
      (∀ s ∈ p.structs, ¬ (s.fields.map Decl.name).Nodup →
        Program.check p ≠ .ok ()) := by
  intro p
  refine ⟨?_, ?_, ?_, ?_⟩
  · intro hnodup hok
    obtain ⟨s1, s2, s3, h1, h2, h3, _, _, _, _⟩ := Program.check_ok_inv hok
    obtain ⟨hnd1, _, hout1⟩ := insertAll_ok h1
    obtain ⟨hnd2, hdj2, hout2⟩ := insertAll_ok h2
    rw [insertFns_eq] at h3
    obtain ⟨hnd3, hdj3, _⟩ := insertAll_ok h3
    apply hnodup
    rw [topLevelNames]
    subst hout2; subst hout1
    refine List.nodup_append.mpr ⟨List.nodup_append.mpr ⟨hnd1, hnd2, ?_⟩, hnd3, ?_⟩
    · intro x hxa hxb
      have hthis := hdj2 x hxb
      simp only [List.mem_append, List.mem_reverse] at hthis
      exact hthis (Or.inl hxa)
    · intro x hxab hxc
      have hthis := hdj3 x hxc
      simp only [List.mem_append, List.mem_reverse] at hthis
      rcases List.mem_append.mp hxab with hxa | hxb
      · exact hthis (Or.inr (Or.inl hxa))
      · exact hthis (Or.inl hxb)
  · intro hmem hex hok
    obtain ⟨s1, s2, s3, h1, h2, h3, h4, _, _, _⟩ := Program.check_ok_inv hok
    obtain ⟨_, _, hout1⟩ := insertAll_ok h1
    obtain ⟨_, _, hout2⟩ := insertAll_ok h2
    rw [insertFns_eq] at h3
    obtain ⟨_, _, hout3⟩ := insertAll_ok h3
    have hmain3 : "main" ∈ s3 := by
      subst hout3; subst hout2; subst hout1
      simp only [List.mem_append, List.mem_reverse]
      rcases List.mem_append.mp hmem with h | h
      · exact Or.inr (Or.inr (Or.inl h))
      · exact Or.inr (Or.inl h)
    have hc : s3.contains "main" = true := by
      simpa using hmain3
    have ha : p.functions.any (fun f => f.name == "main") = true := by
      obtain ⟨f, hf, hfn⟩ := hex
      exact List.any_eq_true.mpr ⟨f, hf, by simp [hfn]⟩
    rw [hc, ha] at h4
    simp at h4
  · intro f hf hnodup hok
    obtain ⟨_, _, _, _, _, _, _, _, _, h7⟩ := Program.check_ok_inv hok
    exact hnodup (FunctionDef.check_ok_decls_nodup (checkFunctions_ok_mem h7 f hf))
  · intro s hs hnodup hok
    obtain ⟨_, _, _, _, _, _, _, _, h6, _⟩ := Program.check_ok_inv hok
    exact hnodup (StructDef.check_ok_fields_nodup (checkStructs_ok_mem h6 s hs))

/-- Witness for the amended claim C5: four concrete programs exercising, in order,
duplicate struct names, a struct named `main` next to a function `main`, duplicate
parameter/local names, and duplicate struct fields. -/
theorem claim_C5_witness :
    Program.check dupStructNoMainProgram ≠ .ok () ∧
    Program.check ⟨[⟨"main", [⟨"x", Ty.int⟩]⟩], [], [wellTypedMain]⟩ ≠ .ok () ∧
    Program.check ⟨[], [], [⟨"main", [], Ty.int, [⟨"x", Ty.int⟩, ⟨"x", Ty.int⟩],
      .stmts [.sreturn (some (.num 0))]⟩]⟩ ≠ .ok () ∧
    Program.check ⟨[⟨"S", [⟨"x", Ty.int⟩, ⟨"x", Ty.int⟩]⟩], [], [wellTypedMain]⟩ ≠
      .ok () :=
  ⟨(claim_C5_amended _).1 (by decide),
    (claim_C5_amended _).2.1 (by decide) ⟨wellTypedMain, List.mem_singleton_self _, rfl⟩,
    (claim_C5_amended _).2.2.1 _ (List.mem_singleton_self _) (by decide),
    (claim_C5_amended _).2.2.2 _ (List.mem_singleton_self _) (by decide)⟩

/-- Claim C6 counterexample: a program with no `main` is always rejected, but the
diagnostic of the no-`main` case is not always "no 'main' function with type
'() -> int' exists": a duplicate struct name is reported first. -/
theorem claim_C6_cex :
    dupStructNoMainProgram.functions = [] ∧
    Program.check dupStructNoMainProgram = .error "Duplicate name: a" ∧
    "Duplicate name: a" ≠ "no 'main' function with type '() -> int' exists" :=
  ⟨rfl, rfl, by decide⟩

/-- Claim C6, amended: a program with no function named `main`, or in which every
function named `main` has parameters or a return type not `eq` to `Int`, is
rejected; and in the no-`main` case the diagnostic is exactly
"no 'main' function with type '() -> int' exists" provided the top-level
duplicate-name phase passes (no duplicate among struct, extern and non-`main`
function names). -/
theorem claim_C6_amended :
    ∀ p : Program,
      (((∀ f ∈ p.functions, f.name ≠ "main") ∨
        (∀ f ∈ p.functions, f.name = "main" →
          (f.params.isEmpty && typeEq f.rettype Ty.int) = false)) →
        Program.check p ≠ .ok ()) ∧
      ((∀ f ∈ p.functions, f.name ≠ "main") → (topLevelNames p).Nodup →
        Program.check p = .error "no 'main' function with type '() -> int' exists") := by
  intro p
  constructor
  · intro hyp hok
    obtain ⟨_, _, _, _, _, _, _, h5, _, _⟩ := Program.check_ok_inv hok
    have hbad : ∀ f ∈ p.functions, f.name = "main" →
        (f.params.isEmpty && typeEq f.rettype Ty.int) = false := by
      rcases hyp with hA | hB
      · exact fun f hf hm => absurd hm (hA f hf)
      · exact hB
    rcases findMain_allBad hbad false with hfm | ⟨e, hfm⟩
    · rw [hfm] at h5; simp at h5
    · rw [hfm] at h5; simp at h5
  · intro hnomain hnodup
    rw [topLevelNames] at hnodup
    obtain ⟨hab, hc, hdjabc⟩ := List.nodup_append.mp hnodup
    obtain ⟨ha, hb, hdjab⟩ := List.nodup_append.mp hab
    have h1 : insertAll [] (p.structs.map StructDef.name) =
        .ok ((p.structs.map StructDef.name).reverse ++ []) :=
      insertAll_ok_of_nodup ha (by simp)
    have h2 : insertAll ((p.structs.map StructDef.name).reverse ++ [])
        (p.externs.map ExternDef.name) =
        .ok ((p.externs.map ExternDef.name).reverse ++
          ((p.structs.map StructDef.name).reverse ++ [])) := by
      apply insertAll_ok_of_nodup hb
      intro n hn
      simp only [List.mem_append, List.mem_reverse, List.not_mem_nil, or_false]
      exact fun hcontra => (List.Disjoint.symm hdjab) hn hcontra
    have h3 : insertFns ((p.externs.map ExternDef.name).reverse ++
          ((p.structs.map StructDef.name).reverse ++ [])) p.functions =
        .ok (((p.functions.map FunctionDef.name).filter (fun n => n ≠ "main")).reverse ++
          ((p.externs.map ExternDef.name).reverse ++
            ((p.structs.map StructDef.name).reverse ++ []))) := by
      rw [insertFns_eq]
      apply insertAll_ok_of_nodup hc
      intro n hn
      simp only [List.mem_append, List.mem_reverse, List.not_mem_nil, or_false]
      intro hcontra
      apply (List.Disjoint.symm hdjabc) hn
      rcases hcontra with h | h
      · exact List.mem_append.mpr (Or.inr h)
      · exact List.mem_append.mpr (Or.inl h)
    have hguard : p.functions.any (fun f => f.name == "main") = false := by
      rw [List.any_eq_false]
      intro f hf
      simp [hnomain f hf]
    have hfm : findMain p.functions false = .ok false := findMain_noMain hnomain false
    rw [Program.check, h1]
    simp only []
    rw [h2]
    simp only []
    rw [h3]
    simp only []
    rw [hguard]
    simp only [Bool.and_false, Bool.false_eq_true, if_false]
    rw [hfm]
    simp only []
    simp

/-- Witness for the amended claim C6 at the empty program (no functions at all, so
no `main`, and trivially no duplicate top-level names). -/
theorem claim_C6_witness :
    Program.check ⟨[], [], []⟩ ≠ .ok () ∧
    Program.check ⟨[], [], []⟩ =
      .error "no 'main' function with type '() -> int' exists" :=
  ⟨(claim_C6_amended _).1 (Or.inl (by simp)),
   (claim_C6_amended _).2 (by simp) (by decide)⟩
